import Mathlib

/-!
Verification development for the pxlai pixel-art editor.

The definitions below are a shallow embedding of the TypeScript source:

* byte buffers are `List ℕ` (each element < 256), `DataView` reads/writes are
  bounds-checked and fail (`Option`/`Except`) exactly where the host would
  throw a `RangeError`;
* IEEE-754 binary32 values written/read by `DataView.setFloat32` /
  `getFloat32` are modelled exactly over `ℚ` (round to nearest, ties to even);
* a palette entry's CSS color string `rgba(r, g, b, a)` is represented by its
  four numeric components (structure `Rgba`); the source recovers the numbers
  with the digit-run regex `/\d+/g`, which for the nonnegative integer
  channels (and the integer part of the alpha) used throughout yields exactly
  `[r, g, b, ⌊a⌋]`;
* `uuidv4()` / `Date.now()` fresh-id sources are passed in as explicit
  generator parameters: ids are opaque and never interpreted.
-/

deriving instance DecidableEq for Except

unseal Rat.add Rat.mul Rat.inv Rat.sub

namespace Pxlai

/-- JavaScript `Math.round`: round half toward positive infinity. -/
def jsRound (x : ℚ) : ℤ := Rat.floor (x + 1 / 2)

/-- Round a rational to the nearest integer, ties to even (IEEE default). -/
def rne (x : ℚ) : ℤ :=
  let n := Rat.floor x
  let f := x - n
  if f < 1 / 2 then n
  else if f > 1 / 2 then n + 1
  else if n % 2 = 0 then n else n + 1

/-- Fuel-driven base-2 logarithm (`⌊log₂ n⌋`, 0 for `n < 2`). -/
def log2Aux : ℕ → ℕ → ℕ
  | 0, _ => 0
  | fuel + 1, n => if n ≥ 2 then log2Aux fuel (n / 2) + 1 else 0

/-- `⌊log₂ n⌋` (0 for `n < 2`). -/
def natLog2 (n : ℕ) : ℕ := log2Aux n n

/-- Largest `e` with `2 ^ e ≤ m`, for `m > 0`: computed from the bit lengths
of numerator and denominator, then corrected by one comparison. -/
def binade (m : ℚ) : ℤ :=
  let cand : ℤ := (natLog2 m.num.natAbs : ℤ) - (natLog2 m.den : ℤ)
  if (2 : ℚ) ^ cand ≤ m then cand else cand - 1

/-- IEEE-754 binary32 bit pattern (as a natural number) of the float32
nearest to `q` (round to nearest, ties to even); mirrors
`DataView.setFloat32`. NaN never arises (inputs are rationals). -/
def f32EncBits (q : ℚ) : ℕ :=
  if q = 0 then 0
  else
    let sgn : ℕ := if q < 0 then 2 ^ 31 else 0
    let m : ℚ := |q|
    let e : ℤ := binade m
    if e < -126 then
      -- subnormal range
      let mant := (rne (m * 2 ^ (149 : ℕ))).toNat
      if mant ≥ 2 ^ 23 then sgn + 1 * 2 ^ 23 else sgn + mant
    else if e > 127 then sgn + 255 * 2 ^ 23
    else
      let mant := (rne ((m / (2 : ℚ) ^ e - 1) * 2 ^ (23 : ℕ))).toNat
      if mant = 2 ^ 23 then
        if e = 127 then sgn + 255 * 2 ^ 23
        else sgn + (e + 128).toNat * 2 ^ 23
      else sgn + (e + 127).toNat * 2 ^ 23 + mant

/-- Exact rational value of a binary32 bit pattern; mirrors
`DataView.getFloat32`. Exponent 255 (NaN/±∞) is never produced by the
encoder for the inputs considered and is mapped to 0. -/
def f32DecBits (n : ℕ) : ℚ :=
  let sgn : ℚ := if n / 2 ^ 31 % 2 = 1 then -1 else 1
  let ex : ℕ := n / 2 ^ 23 % 256
  let mant : ℕ := n % 2 ^ 23
  if ex = 0 then sgn * (mant : ℚ) * (2 : ℚ) ^ (-149 : ℤ)
  else if ex = 255 then 0
  else sgn * ((2 ^ 23 + mant : ℕ) : ℚ) * (2 : ℚ) ^ ((ex : ℤ) - 150)

/-- Big-endian 16-bit byte pair. -/
def u16be (n : ℕ) : List ℕ := [n / 256 % 256, n % 256]

/-- Big-endian 32-bit byte quadruple. -/
def u32be (n : ℕ) : List ℕ :=
  [n / 2 ^ 24 % 256, n / 2 ^ 16 % 256, n / 2 ^ 8 % 256, n % 256]

/-- Bounds-checked single-byte read (`DataView.getUint8`). -/
def readU8 (bs : List ℕ) (i : ℕ) : Option ℕ := bs.get? i

/-- Bounds-checked big-endian 16-bit read (`DataView.getUint16`). -/
def readU16 (bs : List ℕ) (i : ℕ) : Option ℕ := do
  let a ← bs.get? i
  let b ← bs.get? (i + 1)
  pure (a * 256 + b)

/-- Bounds-checked big-endian 32-bit read (`DataView.getUint32`). -/
def readU32 (bs : List ℕ) (i : ℕ) : Option ℕ := do
  let a ← bs.get? i
  let b ← bs.get? (i + 1)
  let c ← bs.get? (i + 2)
  let d ← bs.get? (i + 3)
  pure (a * 2 ^ 24 + b * 2 ^ 16 + c * 2 ^ 8 + d)

/-- Bounds-checked big-endian float32 read (`DataView.getFloat32`). -/
def readF32 (bs : List ℕ) (i : ℕ) : Option ℚ := (readU32 bs i).map f32DecBits

/-- Big-endian float32 bytes (`DataView.setFloat32`). -/
def f32Bytes (q : ℚ) : List ℕ := u32be (f32EncBits q)

/-- Bounds-checked single-byte store; `none` where `DataView` would throw. -/
def setByte (buf : List ℕ) (i v : ℕ) : Option (List ℕ) :=
  if i < buf.length then some (buf.set i v) else none

/-- Store a run of bytes starting at `i`, bounds-checked. -/
def setBytes (buf : List ℕ) (i : ℕ) : List ℕ → Option (List ℕ)
  | [] => some buf
  | v :: vs => do
    let b ← setByte buf i v
    setBytes b (i + 1) vs

/-- UTF-8 encoding of one character (`TextEncoder`). -/
def utf8Char (c : Char) : List ℕ :=
  let n := c.toNat
  if n < 0x80 then [n]
  else if n < 0x800 then [0xC0 + n / 64, 0x80 + n % 64]
  else if n < 0x10000 then [0xE0 + n / 4096, 0x80 + n / 64 % 64, 0x80 + n % 64]
  else [0xF0 + n / 262144, 0x80 + n / 4096 % 64, 0x80 + n / 64 % 64, 0x80 + n % 64]

/-- UTF-8 bytes of a string (`TextEncoder().encode`). -/
def utf8Bytes (s : String) : List ℕ := (s.data.map utf8Char).flatten

/-- JavaScript `String.length`: number of UTF-16 code units. -/
def utf16Len (s : String) : ℕ :=
  (s.data.map (fun c => if c.toNat < 0x10000 then 1 else 2)).sum

/-- UTF-16BE decoding of a byte run into characters
(`TextDecoder('utf-16be')`); surrogate pairs do not arise for the inputs
considered, and code units that are not scalar values collapse to `⟨0⟩`
via `Char.ofNat`. -/
def utf16beChars : List ℕ → List Char
  | b0 :: b1 :: rest => Char.ofNat (b0 * 256 + b1) :: utf16beChars rest
  | _ => []

/-- Drop NUL characters (the source's `.replace(/\0/g, '')`). -/
def stripNulls (cs : List Char) : List Char := cs.filter (· ≠ Char.ofNat 0)

/-- Bounds-checked byte slice (`new Uint8Array(buffer, off, len)`). -/
def byteSlice (bs : List ℕ) (off len : ℕ) : Option (List ℕ) :=
  if off + len ≤ bs.length then some ((bs.drop off).take len) else none

/-- Latin-1 view of bytes (`String.fromCharCode` over `getUint8` values). -/
def bytesToChars (bs : List ℕ) : String := String.mk (bs.map Char.ofNat)

/-- The four numeric components of a CSS color string `rgba(r, g, b, a)`
(`src/src/contexts/ColorContext.tsx`, interface `Color.value`). -/
structure Rgba where
  r : ℕ
  g : ℕ
  b : ℕ
  a : ℚ
  deriving DecidableEq

/-- Palette entry (`interface Color` of ColorContext). -/
structure Color where
  id : String
  value : Rgba
  name : Option String
  deriving DecidableEq

/-- The digit runs the regex `/\d+/g` extracts from the stored color string
`rgba(r, g, b, a)`: for nonnegative integer channels and an alpha whose
decimal rendering starts with its integer part, the first four runs are
`[r, g, b, ⌊a⌋]`. -/
def digitRuns (v : Rgba) : List ℕ := [v.r, v.g, v.b, (Rat.floor v.a).toNat]

/-- `saveASEPalette` (ColorContext, lines 690-756): allocates a zeroed
buffer of `12 + 40·n` bytes, writes the `ASEF` header, then per entry a
color block: tag 1, a constant declared block length of 40, the UTF-16
length of the name, the name's UTF-8 bytes (the cursor nevertheless
advances by twice the UTF-16 length), the ASCII tag `RGB `, four
big-endian float32 channel values `r/255, g/255, b/255, a`, and a zero
color type. Fails (`none`, the host's `RangeError`) when a write falls
outside the buffer. -/
def saveASEPalette (palette : List Color) : Option (List ℕ) := do
  let buf0 := List.replicate (12 + palette.length * 40) 0
  let b1 ← setBytes buf0 0 (u32be 0x41534546)
  let b2 ← setBytes b1 4 (u32be 1)
  let b3 ← setBytes b2 8 (u32be palette.length)
  let res ← palette.foldlM (fun (acc : List ℕ × ℕ) c => do
      let (buf, off) := acc
      let buf ← setBytes buf off (u16be 0x0001)
      let off := off + 2
      let buf ← setBytes buf off (u32be 40)
      let off := off + 4
      let nameLen := match c.name with
        | some nm => utf16Len nm
        | none => 0
      let buf ← setBytes buf off (u16be nameLen)
      let off := off + 2
      let buf ← match c.name with
        | some nm => setBytes buf off (utf8Bytes nm)
        | none => pure buf
      let off := off + nameLen * 2
      let buf ← setBytes buf off (u32be 0x52474220)
      let off := off + 4
      let rr := (digitRuns c.value).getD 0 0
      let gg := (digitRuns c.value).getD 1 0
      let bb := (digitRuns c.value).getD 2 0
      let aa := (digitRuns c.value).getD 3 0
      let buf ← setBytes buf off (f32Bytes ((rr : ℚ) / 255))
      let off := off + 4
      let buf ← setBytes buf off (f32Bytes ((gg : ℚ) / 255))
      let off := off + 4
      let buf ← setBytes buf off (f32Bytes ((bb : ℚ) / 255))
      let off := off + 4
      let buf ← setBytes buf off (f32Bytes (aa : ℚ))
      let off := off + 4
      let buf ← setBytes buf off (u16be 0)
      pure (buf, off + 2))
    (b3, 12)
  pure res.1

/-- One step of `loadASEPalette`'s `while (offset < buffer.byteLength)`
loop (ColorContext, lines 550-633). `now` models `Date.now().toString()`,
the prefix of generated entry ids. The fuel bounds the modelled
iterations: the source loop can fail to advance only when a block declares
a length below 6, which never happens for the inputs considered. -/
def aseLoop (bs : List ℕ) (now : String) : ℕ → ℕ → List Color → Except String (List Color)
  | 0, _, _ => .error "loop limit"
  | fuel + 1, off, acc =>
    if off < bs.length then do
      let bt ← (readU16 bs off).elim (.error "RangeError") .ok
      let off := off + 2
      let bl ← (readU32 bs off).elim (.error "RangeError") .ok
      let off := off + 4
      if bt = 0x0001 then do
        let nameLen ← (readU16 bs off).elim (.error "RangeError") .ok
        let off := off + 2
        let nameBytes ← (byteSlice bs off (nameLen * 2)).elim (.error "RangeError") .ok
        let name := String.mk (stripNulls (utf16beChars nameBytes))
        let off := off + nameLen * 2
        let modelBytes ← (byteSlice bs off 4).elim (.error "RangeError") .ok
        let colorModel := bytesToChars modelBytes
        let off := off + 4
        if colorModel = "RGB " then do
          let r ← (readF32 bs off).elim (.error "RangeError") .ok
          let g ← (readF32 bs (off + 4)).elim (.error "RangeError") .ok
          let b ← (readF32 bs (off + 8)).elim (.error "RangeError") .ok
          let off := off + 12
          let a ← if bl = 40 then (readF32 bs off).elim (.error "RangeError") .ok
                  else pure 1
          let off := off + (if bl = 40 then 4 else 0)
          let entry : Color :=
            { id := now ++ toString acc.length
              value := ⟨(jsRound (r * 255)).toNat, (jsRound (g * 255)).toNat,
                        (jsRound (b * 255)).toNat, a⟩
              name := some (if name = "" then "Color " ++ toString (acc.length + 1) else name) }
          let _ ← (readU16 bs off).elim (.error "RangeError") (.ok)
          aseLoop bs now fuel (off + 2) (acc ++ [entry])
        else if colorModel = "CMYK" then do
          let c ← (readF32 bs off).elim (.error "RangeError") .ok
          let m ← (readF32 bs (off + 4)).elim (.error "RangeError") .ok
          let y ← (readF32 bs (off + 8)).elim (.error "RangeError") .ok
          let k ← (readF32 bs (off + 12)).elim (.error "RangeError") .ok
          let off := off + 16
          let r := 255 * (1 - c) * (1 - k)
          let g := 255 * (1 - m) * (1 - k)
          let b := 255 * (1 - y) * (1 - k)
          let entry : Color :=
            { id := now ++ toString acc.length
              value := ⟨(jsRound r).toNat, (jsRound g).toNat, (jsRound b).toNat, 1⟩
              name := some (if name = "" then "Color " ++ toString (acc.length + 1) else name) }
          let _ ← (readU16 bs off).elim (.error "RangeError") (.ok)
          aseLoop bs now fuel (off + 2) (acc ++ [entry])
        else do
          -- unsupported model: no channel bytes are consumed, yet the
          -- color-type word is still read
          let _ ← (readU16 bs off).elim (.error "RangeError") (.ok)
          aseLoop bs now fuel (off + 2) acc
      else if bt = 0xc001 then do
        let nameLen ← (readU16 bs off).elim (.error "RangeError") .ok
        let off := off + 2
        let _ ← (byteSlice bs off (nameLen * 2)).elim (.error "RangeError") .ok
        aseLoop bs now fuel (off + nameLen * 2) acc
      else if bt = 0xc002 then
        aseLoop bs now fuel off acc
      else if bt = 0x0000 then
        .ok acc
      else
        -- unknown block: skip using the declared length
        let z : ℤ := (off : ℤ) + (bl : ℤ) - 6
        if z < 0 then .error "RangeError" else aseLoop bs now fuel z.toNat acc
    else .ok acc

/-- `loadASEPalette` (ColorContext, lines 531-648): checks the `ASEF`
signature, reads version and block count, runs the block loop, and fails
when no color entry was decoded. -/
def loadASEPalette (now : String) (bs : List ℕ) : Except String (List Color) := do
  let sigBytes ← (byteSlice bs 0 4).elim (.error "RangeError") .ok
  if bytesToChars sigBytes ≠ "ASEF" then .error "Invalid ASE file signature"
  else do
    let _ ← (readU32 bs 4).elim (.error "RangeError") .ok
    let _ ← (readU32 bs 8).elim (.error "RangeError") .ok
    let pal ← aseLoop bs now (bs.length + 1) 12 []
    if pal.length > 0 then .ok pal
    else .error "No valid colors found in the ASE file"

/-- JavaScript whitespace test (the `\s` class, restricted to the
characters that occur in the palette texts considered). -/
def jsWhitespace (c : Char) : Bool := c.isWhitespace

/-- `String.prototype.trim` on the character list. -/
def trimChars (cs : List Char) : List Char :=
  ((cs.dropWhile jsWhitespace).reverse.dropWhile jsWhitespace).reverse

/-- `String.prototype.trim`. -/
def trimStr (s : String) : String := String.mk (trimChars s.data)

/-- Split a character list at every occurrence of `sep` (the semantics of
`split` with a one-character separator: the result is never empty and
adjacent separators yield empty pieces). -/
def splitCharAux (sep : Char) : List Char → List (List Char)
  | [] => [[]]
  | c :: rest =>
    match splitCharAux sep rest with
    | [] => [[]]
    | g :: gs => if c = sep then [] :: g :: gs else (c :: g) :: gs

/-- Maximal runs of non-whitespace characters (the semantics of
`split(/\s+/)` on an already-trimmed string): `cur` holds the reversed
run being collected. -/
def wsTokensAux : List Char → List Char → List (List Char)
  | [], cur => if cur = [] then [] else [cur.reverse]
  | c :: rest, cur =>
    if jsWhitespace c then
      if cur = [] then wsTokensAux rest []
      else cur.reverse :: wsTokensAux rest []
    else wsTokensAux rest (c :: cur)

/-- `tokens.join(' ')`. -/
def joinWith (sep : List Char) : List (List Char) → List Char
  | [] => []
  | [g] => g
  | g :: gs => g ++ sep ++ joinWith sep gs

/-- Newline normalization matching the split regex alternation
`\r\n | \n | \r` (CRLF first, then the single-character terminators). -/
def normNL : List Char → List Char
  | [] => []
  | [c] => [if c = Char.ofNat 13 then Char.ofNat 10 else c]
  | c1 :: c2 :: rest =>
    if c1 = Char.ofNat 13 then
      if c2 = Char.ofNat 10 then Char.ofNat 10 :: normNL rest
      else Char.ofNat 10 :: normNL (c2 :: rest)
    else c1 :: normNL (c2 :: rest)

/-- `text.split(/\r\n|\n|\r/)`. -/
def splitLines (s : String) : List String :=
  (splitCharAux (Char.ofNat 10) (normNL s.data)).map String.mk

/-- `line.split(/\s+/)` applied to an already-trimmed line: whitespace-run
separated tokens. -/
def splitWs (s : String) : List String :=
  (wsTokensAux s.data []).map String.mk

/-- The slice of the JavaScript `Number()` grammar the decoder exercises:
the first three tokens of a data line, which for the files the claims
consider are plain digit runs (anything else is `NaN` and skips the line). -/
def jsNumNat (s : String) : Option ℕ :=
  match s.data with
  | [] => none
  | cs =>
    if cs.all (fun c => c.isDigit) then
      some (cs.foldl (fun n c => n * 10 + (c.toNat - 48)) 0)
    else none

/-- `line.startsWith('#')`. -/
def startsWithHash (s : String) : Bool :=
  match s.data with
  | c :: _ => c = Char.ofNat 35
  | [] => false

/-- `String.prototype.padStart(3)` (space padding). -/
def padStart3 (s : String) : String :=
  if s.length ≥ 3 then s else String.mk (List.replicate (3 - s.length) ' ') ++ s

/-- `Number.prototype.toFixed(2)` for the natural alpha values the model
carries. -/
def toFixed2 (n : ℕ) : String := toString n ++ ".00"

/-- `saveGPLPalette` (ColorContext, lines 758-774): fixed header, three
comment lines, then one line per entry with right-aligned `r g b`, the
alpha rendered via `toFixed(2)`, four spaces, and the name. -/
def saveGPLPalette (palette : List Color) : String :=
  let header := "GIMP Palette\n" ++ "# Generated by Your App Name\n"
    ++ "# Palette Name: Custom Palette\n"
    ++ "# Colors: " ++ toString palette.length ++ "\n"
  palette.foldl (fun acc c =>
    let rr := (digitRuns c.value).getD 0 0
    let gg := (digitRuns c.value).getD 1 0
    let bb := (digitRuns c.value).getD 2 0
    let aa := (digitRuns c.value).getD 3 0
    acc ++ padStart3 (toString rr) ++ " " ++ padStart3 (toString gg) ++ " "
      ++ padStart3 (toString bb) ++ " " ++ toFixed2 aa ++ "    "
      ++ (c.name.getD "") ++ "\n") header

/-- `loadGPLPalette` (ColorContext, lines 650-688): requires the literal
first line `GIMP Palette`; skips blank and `#` lines; a data line needs at
least three tokens whose first three parse as numbers; the remaining
tokens joined with single spaces form the name. `fresh` models the
`uuidv4()` id source. Fails when no entry parses. -/
def loadGPLPalette (fresh : ℕ → String) (text : String) : Except String (List Color) :=
  let lines := splitLines text
  if trimStr (lines.headD "") ≠ "GIMP Palette" then .error "Invalid GPL file format"
  else
    let pal := (lines.drop 1).foldl (fun (acc : List Color) rawLine =>
      let line := trimStr rawLine
      if line ≠ "" ∧ startsWithHash line = false then
        let toks := splitWs line
        if toks.length ≥ 3 then
          match jsNumNat (toks.getD 0 ""), jsNumNat (toks.getD 1 ""), jsNumNat (toks.getD 2 "") with
          | some rr, some gg, some bb =>
            let nm := String.mk (joinWith [Char.ofNat 32] ((toks.drop 3).map String.data))
            let nm := if nm = "" then "Color " ++ toString (acc.length + 1) else nm
            acc ++ [⟨fresh acc.length, ⟨rr, gg, bb, 1⟩, some nm⟩]
          | _, _, _ => acc
        else acc
      else acc) []
    if pal.length > 0 then .ok pal
    else .error "No valid colors found in the GPL file"

/-- Sort orders (`type SortOrder = 'default' | 'lightness-asc' |
'lightness-desc'`); `defaultOrder` is the source's `'default'`
(insertion order). -/
inductive SortOrder where
  | defaultOrder
  | lightnessAsc
  | lightnessDesc
  deriving DecidableEq

/-- A layer (`interface Layer` of types.ts). `canvasData` is the layer's
bitmap as a data URL; the TypeScript type declares `string`, but `loadFile`
can store `undefined` there, hence `Option`. -/
structure Layer where
  id : String
  name : String
  isVisible : Bool
  canvasData : Option String
  deriving DecidableEq

/-- Per-file state (`interface FileColorState` of ColorContext), with the
fields total as the TypeScript interface declares them. -/
structure FileColorState where
  currentColor : Option String
  palette : List Color
  sortOrder : SortOrder
  selectedColorId : Option String
  layers : List Layer
  activeLayerId : Option String
  selectedLayerIds : List String
  deriving DecidableEq

/-- Stand-in for the data URL `createTransparentCanvas(w, h)` returns; the
bitmap's content is never interpreted by the operations the claims cover. -/
def transparentCanvasData (w h : ℕ) : String :=
  "transparent:" ++ toString w ++ "x" ++ toString h

/-- `addLayer` (ColorContext, lines 875-896): a fresh transparent 32×32
layer is prepended, becomes active and the sole selection. `gen` models
`uuidv4()`. -/
def addLayer (gen : String) (s : FileColorState) : FileColorState :=
  let newLayer : Layer :=
    ⟨gen, "Layer " ++ toString (s.layers.length + 1), true,
      some (transparentCanvasData 32 32)⟩
  { s with layers := newLayer :: s.layers
           activeLayerId := some newLayer.id
           selectedLayerIds := [newLayer.id] }

/-- `removeLayer` (ColorContext, lines 898-913): filters the layer out,
unconditionally points `activeLayerId` at the new first remaining layer
(or none) and clears the selection. -/
def removeLayer (layerId : String) (s : FileColorState) : FileColorState :=
  let newLayers := s.layers.filter (fun l => l.id ≠ layerId)
  { s with layers := newLayers
           activeLayerId := match newLayers.head? with
             | some l => some l.id
             | none => none
           selectedLayerIds := [] }

/-- `toggleLayerVisibility` (ColorContext, lines 915-929). -/
def toggleLayerVisibility (layerId : String) (s : FileColorState) : FileColorState :=
  { s with layers := s.layers.map (fun l =>
      if l.id = layerId then { l with isVisible := ! l.isVisible } else l) }

/-- `setActiveLayer` (ColorContext, lines 931-944): sets the active layer
and the selection to the given id without checking it exists. -/
def setActiveLayer (layerId : String) (s : FileColorState) : FileColorState :=
  { s with activeLayerId := some layerId, selectedLayerIds := [layerId] }

/-- `reorderLayers` (ColorContext, lines 946-961): JavaScript
`splice(src, 1)` followed by `splice(tgt, 0, moved)`; the insertion index
clamps to the array length. For an out-of-range source the source splices
an `undefined` hole into the array, which leaves the set of real layers
unchanged; the model keeps the list unchanged in that case. -/
def reorderLayers (sourceIndex targetIndex : ℕ) (s : FileColorState) : FileColorState :=
  match s.layers.get? sourceIndex with
  | none => s
  | some moved =>
    let rest := s.layers.eraseIdx sourceIndex
    { s with layers := rest.insertIdx (min targetIndex rest.length) moved }

/-- JavaScript `list[0] || null` for string lists (the empty string is
falsy). -/
def jsFirstOrNone (l : List String) : Option String :=
  match l with
  | [] => none
  | h :: _ => if h = "" then none else some h

/-- `selectLayer` (ColorContext, lines 1005-1026): multi-select toggles
membership, plain select replaces the selection; the active layer becomes
the first selected id or none. -/
def selectLayer (layerId : String) (multiSelect : Bool) (s : FileColorState) : FileColorState :=
  let newSel :=
    if multiSelect then
      if layerId ∈ s.selectedLayerIds then s.selectedLayerIds.filter (· ≠ layerId)
      else s.selectedLayerIds ++ [layerId]
    else [layerId]
  { s with selectedLayerIds := newSel, activeLayerId := jsFirstOrNone newSel }

/-- `updateLayerName` (ColorContext, lines 1032-1046). -/
def updateLayerName (layerId newName : String) (s : FileColorState) : FileColorState :=
  { s with layers := s.layers.map (fun l =>
      if l.id = layerId then { l with name := newName } else l) }

/-- The order cycle array of `toggleSortOrder` (ColorContext, line 484). -/
def sortOrders : List SortOrder := [.defaultOrder, .lightnessAsc, .lightnessDesc]

/-- `toggleSortOrder` (ColorContext, lines 481-495): advances `sortOrder`
to `orders[(orders.indexOf(current) + 1) % 3]`, touching nothing else. -/
def toggleSortOrder (s : FileColorState) : FileColorState :=
  { s with sortOrder :=
      (sortOrders.getD ((sortOrders.indexOf s.sortOrder + 1) % sortOrders.length)
        .defaultOrder) }

/-- The ids of a state's layers. -/
def layerIds (s : FileColorState) : List String := s.layers.map (·.id)

/-- The document invariant of spec §3: the active layer id, if set, names a
present layer, and every selected id names a present layer. -/
def Inv (s : FileColorState) : Prop :=
  (match s.activeLayerId with
   | some a => a ∈ layerIds s
   | none => True) ∧
  ∀ i ∈ s.selectedLayerIds, i ∈ layerIds s

/-- `loadPalette` (ColorContext, lines 519-529) dispatches on the file
extension and, on success, replaces the file's palette with the decoded
one; a decode failure propagates to the caller unchanged (there is no
`catch`), so no decoded entries are committed. `bytes` and `text` are the
two host views of the same file. -/
def fileExtension (fileName : String) : String :=
  String.mk (((splitCharAux (Char.ofNat 46) fileName.data).getLastD
    fileName.data).map Char.toLower)

/-- See `fileExtension`; state-level palette import. -/
def loadPalette (now : String) (fresh : ℕ → String) (fileName : String)
    (bytes : List ℕ) (text : String) (s : FileColorState) :
    Except String FileColorState :=
  let ext := fileExtension fileName
  if ext = "ase" then (loadASEPalette now bytes).map (fun p => { s with palette := p })
  else if ext = "gpl" then (loadGPLPalette fresh text).map (fun p => { s with palette := p })
  else .error "Unsupported file format"

/-- The parsed JSON of a `.pxlai` save file as `loadFile` reads it; `none`
is a field that is absent (`undefined`). -/
structure SaveData where
  version : Option String
  id : String
  name : String
  width : ℕ
  height : ℕ
  canvasData : Option String
  layers : Option (List Layer)
  activeLayerId : Option String
  palette : Option (List Color)
  sortOrder : Option SortOrder
  selectedColorId : Option String
  currentColor : Option String
  deriving DecidableEq

/-- What `loadFile` actually commits into `fileColorStates`: the raw file
fields, which may be `undefined` even where the `FileColorState` interface
promises a value. -/
structure LoadedState where
  currentColor : Option String
  palette : Option (List Color)
  sortOrder : Option SortOrder
  selectedColorId : Option String
  layers : Option (List Layer)
  activeLayerId : Option String
  selectedLayerIds : List String
  deriving DecidableEq

/-- The object `loadFile` returns to its caller. -/
structure LoadResult where
  version : String
  id : String
  name : String
  width : ℕ
  height : ℕ
  layers : Option (List Layer)
  activeLayerId : Option String
  deriving DecidableEq

/-- The version `loadFile` works with after the missing-version fixup
(`if (!fileData.version) fileData.version = "0.1"`; the empty string is
falsy too). -/
def effectiveVersion (d : SaveData) : String :=
  match d.version with
  | none => "0.1"
  | some s => if s = "" then "0.1" else s

/-- `loadFile` (ColorContext, lines 814-873). `gen` models the `uuidv4()`
fallback-layer id. Version "0.1" builds a single `Layer 1` from the flat
bitmap and copies every color-state field verbatim from the file (absent
ones stay absent); "0.2" copies layers and active id; any other version
proceeds with `layers || fallback` and `activeLayerId || layers[0].id`,
which throws a `TypeError` (modelled as `.error`) when the file carries an
empty layer list and no (or an empty) active layer id. -/
def loadFile (gen : String) (d : SaveData) : Except String (LoadedState × LoadResult) := do
  let ver := effectiveVersion d
  let (layers, activeLayerId) ←
    if ver = "0.1" then
      let l : Layer := ⟨gen, "Layer 1", true, d.canvasData⟩
      Except.ok (some [l], some l.id)
    else if ver = "0.2" then
      Except.ok (d.layers, d.activeLayerId)
    else
      let layers := match d.layers with
        | some ls => some ls
        | none => some [(⟨gen, "Layer 1", true, d.canvasData⟩ : Layer)]
      let act ← match d.activeLayerId with
        | some a =>
          if a = "" then
            match layers with
            | some (l :: _) => Except.ok (some l.id)
            | _ => Except.error "TypeError: undefined layers[0]"
          else Except.ok (some a)
        | none =>
          match layers with
          | some (l :: _) => Except.ok (some l.id)
          | _ => Except.error "TypeError: undefined layers[0]"
      Except.ok (layers, act)
  let st : LoadedState :=
    { currentColor := d.currentColor
      palette := d.palette
      sortOrder := d.sortOrder
      selectedColorId := d.selectedColorId
      layers := layers
      activeLayerId := activeLayerId
      selectedLayerIds := [] }
  let res : LoadResult :=
    { version := ver, id := d.id, name := d.name, width := d.width,
      height := d.height, layers := layers, activeLayerId := activeLayerId }
  pure (st, res)

/-- A canvas pixel with rational channels in `[0, 1]`. -/
structure Pixel where
  r : ℚ
  g : ℚ
  b : ℚ
  a : ℚ
  deriving DecidableEq

/-- The transparent black a cleared canvas holds. -/
def clearPixel : Pixel := ⟨0, 0, 0, 0⟩

/-- CSS `#ffffff`. -/
def whitePixel : Pixel := ⟨1, 1, 1, 1⟩

/-- CSS `#e0e0e0`. -/
def grayPixel : Pixel := ⟨224 / 255, 224 / 255, 224 / 255, 1⟩

/-- A canvas as a pixel field. -/
def CanvasImage : Type := ℕ → ℕ → Pixel

/-- `ctx.fillRect(x0, y0, w, h)` with paint `p`. -/
def fillRect (c : CanvasImage) (x0 y0 w h : ℕ) (p : Pixel) : CanvasImage :=
  fun x y => if x0 ≤ x ∧ x < x0 + w ∧ y0 ≤ y ∧ y < y0 + h then p else c x y

/-- A fully transparent canvas (fresh canvas / after `clearRect`). -/
def clearedCanvas : CanvasImage := fun _ _ => clearPixel

/-- The tile origins the checkerboard loops visit: `x` and `y` step by 8
while below the bound. -/
def tileOrigins (w h : ℕ) : List (ℕ × ℕ) :=
  ((List.range ((h + 7) / 8)).map (fun j =>
    (List.range ((w + 7) / 8)).map (fun i => (8 * i, 8 * j)))).flatten

/-- `drawCheckerboard` (part_006, lines 245-258): fill the whole canvas
white, then paint an `#e0e0e0` 8×8 tile wherever `(x/8 + y/8)` is even. -/
def drawCheckerboard (c : CanvasImage) (w h : ℕ) : CanvasImage :=
  (tileOrigins w h).foldl (fun acc xy =>
      if (xy.1 / 8 + xy.2 / 8) % 2 = 0 then fillRect acc xy.1 xy.2 8 8 grayPixel
      else acc)
    (fillRect c 0 0 w h whitePixel)

/-- Source-over alpha compositing of one source pixel onto a destination
pixel (the canvas 2D default used by `drawImage`). -/
def overPixel (dst src : Pixel) : Pixel :=
  let a := src.a + dst.a * (1 - src.a)
  if a = 0 then clearPixel
  else ⟨(src.r * src.a + dst.r * dst.a * (1 - src.a)) / a,
        (src.g * src.a + dst.g * dst.a * (1 - src.a)) / a,
        (src.b * src.a + dst.b * dst.a * (1 - src.a)) / a, a⟩

/-- `ctx.drawImage(img, 0, 0)` onto a `w × h` canvas. -/
def drawImage (c : CanvasImage) (img : CanvasImage) (w h : ℕ) : CanvasImage :=
  fun x y => if x < w ∧ y < h then overPixel (c x y) (img x y) else c x y

/-- A layer as the compositor sees it: its off-screen canvas holds the
decoded bitmap. -/
structure CLayer where
  id : String
  isVisible : Bool
  pixels : CanvasImage

/-- `compositeCanvas` (part_006, lines 109-137): clear the display canvas,
draw the checkerboard, then draw each visible layer's off-screen canvas in
reverse storage order. -/
def compositeCanvas (layers : List CLayer) (w h : ℕ) : CanvasImage :=
  layers.reverse.foldl (fun acc l =>
      if l.isVisible then drawImage acc l.pixels w h else acc)
    (drawCheckerboard clearedCanvas w h)

/-- The sort-order cycle as the spec states it: insertion order →
lightness ascending → lightness descending → insertion order. -/
def nextSortOrder : SortOrder → SortOrder
  | .defaultOrder => .lightnessAsc
  | .lightnessAsc => .lightnessDesc
  | .lightnessDesc => .defaultOrder

/-- The source's array-lookup step computes `nextSortOrder`. -/
lemma sortCycle (so : SortOrder) :
    sortOrders.getD ((sortOrders.indexOf so + 1) % sortOrders.length) .defaultOrder
      = nextSortOrder so := by
  cases so <;> rfl

/-- The lookup-based cycle of the source computes `nextSortOrder`. -/
lemma toggleSortOrder_eq (s : FileColorState) :
    toggleSortOrder s = { s with sortOrder := nextSortOrder s.sortOrder } := by
  unfold toggleSortOrder
  rw [sortCycle]

/-- C9: each `toggleSortOrder` call advances `sortOrder` one step along the
cycle insertion-order → lightness-ascending → lightness-descending →
insertion-order and changes no other field (palette sequence and ids,
current color, color selection, layers, active layer, layer selection
untouched), so three consecutive calls restore the exact prior state. -/
theorem c9_toggle_sort_order_cycles (s : FileColorState) :
    toggleSortOrder (toggleSortOrder (toggleSortOrder s)) = s ∧
    (toggleSortOrder s).sortOrder = nextSortOrder s.sortOrder ∧
    (toggleSortOrder s).currentColor = s.currentColor ∧
    (toggleSortOrder s).palette = s.palette ∧
    (toggleSortOrder s).selectedColorId = s.selectedColorId ∧
    (toggleSortOrder s).layers = s.layers ∧
    (toggleSortOrder s).activeLayerId = s.activeLayerId ∧
    (toggleSortOrder s).selectedLayerIds = s.selectedLayerIds := by
  obtain ⟨cc, pal, so, sel, ly, act, sl⟩ := s
  simp only [toggleSortOrder_eq]
  cases so <;> simp [nextSortOrder]

/-- C10: `removeLayer` always reassigns `activeLayerId` to the first
remaining layer (or none when the list empties) and resets
`selectedLayerIds` to empty — independent of whether the removed id was
active or selected — while the other fields are untouched. -/
theorem c10_remove_layer_resets_selection (s : FileColorState) (lid : String) :
    (removeLayer lid s).layers = s.layers.filter (fun l => l.id ≠ lid) ∧
    (removeLayer lid s).activeLayerId
      = ((s.layers.filter (fun l => l.id ≠ lid)).head?).map Layer.id ∧
    (removeLayer lid s).selectedLayerIds = [] ∧
    (removeLayer lid s).currentColor = s.currentColor ∧
    (removeLayer lid s).palette = s.palette ∧
    (removeLayer lid s).sortOrder = s.sortOrder ∧
    (removeLayer lid s).selectedColorId = s.selectedColorId := by
  refine ⟨rfl, ?_, rfl, rfl, rfl, rfl, rfl⟩
  cases h : (s.layers.filter (fun l => l.id ≠ lid)).head? <;>
    simp only [removeLayer, h, Option.map_none', Option.map_some']

/-- C4: a save file with the `version` field absent loads exactly as the
same file with `version` set to "0.1": the committed state and returned
document coincide. -/
theorem c4_missing_version_is_0_1 (gen : String) (d : SaveData)
    (h : d.version = none) :
    loadFile gen d = loadFile gen { d with version := some "0.1" } := by
  simp [loadFile, effectiveVersion, h]

/-- Concrete instance for `c4_missing_version_is_0_1`. -/
def c4data : SaveData :=
  ⟨none, "f1", "doc", 2, 2, some "bitmap", none, none, none, none, none, none⟩

/-- Witness for C4 at a concrete version-less save file. -/
theorem c4_missing_version_is_0_1_witness :
    c4data.version = none ∧
    loadFile "g" c4data = loadFile "g" { c4data with version := some "0.1" } :=
  ⟨rfl, c4_missing_version_is_0_1 "g" c4data rfl⟩

/-- A one-layer document in a legal state. -/
def c2state : FileColorState :=
  ⟨none, [], .defaultOrder, none, [⟨"L1", "Background", true, none⟩],
    some "L1", ["L1"]⟩

/-- C2 counterexample: `setActiveLayer` stores whatever id it is handed,
so pointing it at an id that names no layer leaves the document with a
dangling `activeLayerId` (and selection) — the invariant does not hold
after every layer-mutating call with arbitrary arguments. -/
theorem c2_set_active_layer_breaks_invariant :
    ¬ Inv (setActiveLayer "L2" c2state) := by
  simp [Inv, setActiveLayer, c2state, layerIds]

/-- Id-preserving per-layer edits keep `layerIds`. -/
lemma layerIds_map_edit (s : FileColorState) (f : Layer → Layer)
    (hf : ∀ l, (f l).id = l.id) :
    (s.layers.map f).map Layer.id = layerIds s := by
  unfold layerIds
  rw [List.map_map]
  exact List.map_congr_left (fun l _ => hf l)

/-- Membership in a list splits at a removed index. -/
lemma mem_eq_get_or_mem_eraseIdx :
    ∀ (l : List Layer) (i : ℕ) (h : i < l.length) {a : Layer}, a ∈ l →
      a = l.get ⟨i, h⟩ ∨ a ∈ l.eraseIdx i
  | b :: t, 0, _, a, ha => by
    rcases List.mem_cons.mp ha with h1 | h2
    · exact Or.inl h1
    · exact Or.inr h2
  | b :: t, i + 1, h, a, ha => by
    rcases List.mem_cons.mp ha with h1 | h2
    · exact Or.inr (by simp [List.eraseIdx, h1])
    · rcases mem_eq_get_or_mem_eraseIdx t i (Nat.lt_of_succ_lt_succ h) h2 with h3 | h4
      · exact Or.inl h3
      · exact Or.inr (by simp [List.eraseIdx, h4])

/-- `reorderLayers` never loses a layer id. -/
lemma mem_layerIds_reorderLayers (i j : ℕ) (s : FileColorState) {a : String}
    (ha : a ∈ layerIds s) : a ∈ layerIds (reorderLayers i j s) := by
  unfold reorderLayers
  cases hg : s.layers.get? i with
  | none => exact ha
  | some moved =>
    have hi : i < s.layers.length := List.get?_eq_some.mp hg |>.1
    obtain ⟨l, hl, hid⟩ := List.mem_map.mp ha
    have hmem : l = s.layers.get ⟨i, hi⟩ ∨ l ∈ s.layers.eraseIdx i :=
      mem_eq_get_or_mem_eraseIdx s.layers i hi hl
    have hmoved : s.layers.get ⟨i, hi⟩ = moved := by
      have := List.get?_eq_some.mp hg
      exact this.2
    apply List.mem_map.mpr
    refine ⟨l, ?_, hid⟩
    have hlen : min j (s.layers.eraseIdx i).length ≤ (s.layers.eraseIdx i).length :=
      Nat.min_le_right _ _
    apply (List.mem_insertIdx hlen).mpr
    rcases hmem with h1 | h2
    · exact Or.inl (h1.trans hmoved)
    · exact Or.inr h2

/-- C2 amended: each layer-mutating operation (add, delete, reorder,
rename, toggle visibility, set active, select) preserves the invariant
provided it held before and the id handed to `setActiveLayer` /
`selectLayer` names a layer of the document; without that proviso the
invariant can be broken, as `c2_set_active_layer_breaks_invariant`
shows. -/
theorem c2_layer_ops_preserve_invariant (gen lid nm : String) (i j : ℕ)
    (multi : Bool) (s : FileColorState) (hInv : Inv s) :
    Inv (addLayer gen s) ∧ Inv (removeLayer lid s) ∧
    Inv (toggleLayerVisibility lid s) ∧ Inv (updateLayerName lid nm s) ∧
    Inv (reorderLayers i j s) ∧
    (lid ∈ layerIds s → Inv (setActiveLayer lid s)) ∧
    (lid ∈ layerIds s → Inv (selectLayer lid multi s)) := by
  obtain ⟨hAct, hSel⟩ := hInv
  refine ⟨?_, ?_, ?_, ?_, ?_, ?_, ?_⟩
  · -- addLayer
    constructor
    · simp [addLayer, layerIds]
    · intro x hx
      simp only [addLayer] at hx
      simp only [List.mem_singleton] at hx
      simp [addLayer, layerIds, hx]
  · -- removeLayer
    have hact : (removeLayer lid s).activeLayerId
        = ((s.layers.filter (fun l => l.id ≠ lid)).head?).map Layer.id := by
      cases hh : (s.layers.filter (fun l => l.id ≠ lid)).head? <;>
        simp only [removeLayer, hh, Option.map_none', Option.map_some']
    constructor
    · show (match (removeLayer lid s).activeLayerId with
        | some a => a ∈ layerIds (removeLayer lid s)
        | none => True)
      rw [hact]
      cases hh : (s.layers.filter (fun l => l.id ≠ lid)).head? with
      | none => simp
      | some l =>
        simp only [Option.map_some']
        show l.id ∈ layerIds (removeLayer lid s)
        refine List.mem_map.mpr ⟨l, ?_, rfl⟩
        show l ∈ s.layers.filter (fun l => l.id ≠ lid)
        exact List.mem_of_mem_head? (Option.mem_def.mpr hh)
    · intro x hx
      simp [removeLayer] at hx
  · -- toggleLayerVisibility
    have hids : layerIds (toggleLayerVisibility lid s) = layerIds s := by
      unfold toggleLayerVisibility layerIds
      exact layerIds_map_edit s _ (fun l => by by_cases h : l.id = lid <;> simp [h])
    constructor
    · simp only [toggleLayerVisibility] at hids ⊢
      rw [hids]
      exact hAct
    · intro x hx
      simp only [toggleLayerVisibility] at hids hx ⊢
      rw [hids]
      exact hSel x hx
  · -- updateLayerName
    have hids : layerIds (updateLayerName lid nm s) = layerIds s := by
      unfold updateLayerName layerIds
      exact layerIds_map_edit s _ (fun l => by by_cases h : l.id = lid <;> simp [h])
    constructor
    · simp only [updateLayerName] at hids ⊢
      rw [hids]
      exact hAct
    · intro x hx
      simp only [updateLayerName] at hids hx ⊢
      rw [hids]
      exact hSel x hx
  · -- reorderLayers
    have hframe1 : (reorderLayers i j s).activeLayerId = s.activeLayerId := by
      unfold reorderLayers
      cases s.layers.get? i <;> rfl
    have hframe2 : (reorderLayers i j s).selectedLayerIds = s.selectedLayerIds := by
      unfold reorderLayers
      cases s.layers.get? i <;> rfl
    constructor
    · rw [hframe1]
      cases hc : s.activeLayerId with
      | none => simp
      | some a =>
        have := hAct
        rw [hc] at this
        exact mem_layerIds_reorderLayers i j s this
    · intro x hx
      rw [hframe2] at hx
      exact mem_layerIds_reorderLayers i j s (hSel x hx)
  · -- setActiveLayer
    intro hmem
    exact ⟨hmem, by intro x hx; simp [setActiveLayer] at hx; simpa [hx] using hmem⟩
  · -- selectLayer
    intro hmem
    have hsub : ∀ x ∈ (selectLayer lid multi s).selectedLayerIds, x ∈ layerIds s := by
      intro x hx
      simp only [selectLayer] at hx
      by_cases hm : multi = true
      · subst hm
        simp only [if_pos rfl] at hx
        by_cases hin : lid ∈ s.selectedLayerIds
        · simp only [if_pos hin] at hx
          exact hSel x (List.mem_of_mem_filter hx)
        · simp only [if_neg hin] at hx
          rcases List.mem_append.mp hx with h1 | h2
          · exact hSel x h1
          · simp only [List.mem_singleton] at h2
            simpa [h2] using hmem
      · have hm' : multi = false := by
          cases multi
          · rfl
          · exact absurd rfl hm
        subst hm'
        simp only [Bool.false_eq_true, if_false, List.mem_singleton] at hx
        simpa [hx] using hmem
    constructor
    · show (match (selectLayer lid multi s).activeLayerId with
        | some a => a ∈ layerIds (selectLayer lid multi s)
        | none => True)
      have hact : (selectLayer lid multi s).activeLayerId
          = jsFirstOrNone (selectLayer lid multi s).selectedLayerIds := rfl
      rw [hact]
      cases hl : (selectLayer lid multi s).selectedLayerIds with
      | nil => simp [jsFirstOrNone]
      | cons h t =>
        simp only [jsFirstOrNone]
        by_cases hh : h = ""
        · simp [hh]
        · simp only [if_neg hh]
          show h ∈ layerIds (selectLayer lid multi s)
          have hmemSel : h ∈ (selectLayer lid multi s).selectedLayerIds := by
            rw [hl]
            exact List.mem_cons_self _ _
          exact hsub h hmemSel
    · exact hsub

/-- JavaScript falsiness of an optional id (`undefined`, `null` or the
empty string). -/
def jsFalsyId : Option String → Bool
  | none => true
  | some a => a = ""

/-- A save file with an unknown version, an empty layer list and no active
layer id — legal output of `saveFile` after every layer was deleted. -/
def c6badData : SaveData :=
  ⟨some "9.9", "f2", "x", 1, 1, none, some [], none, none, none, none, none⟩

/-- C6 counterexample: an unknown-version save file whose layer list is
present but empty and whose active layer id is absent makes `loadFile`
throw (`fileData.activeLayerId || layers[0].id` dereferences
`undefined`), so loading an unknown version can hard-fail. -/
theorem c6_unknown_version_can_fail :
    loadFile "g" c6badData = Except.error "TypeError: undefined layers[0]" := rfl

/-- C6 amended: for a save file with an unknown version string, loading
does not fail and produces a document — using the 0.2 layout with a
fallback layer and fallback active id for missing fields — provided that
a present-but-empty layer list comes with a truthy active layer id (the
case `c6_unknown_version_can_fail` exhibits is the only failure). -/
theorem c6_unknown_version_loads (gen : String) (d : SaveData)
    (hv1 : effectiveVersion d ≠ "0.1") (hv2 : effectiveVersion d ≠ "0.2")
    (hlay : d.layers = some [] → jsFalsyId d.activeLayerId = false) :
    ∃ r, loadFile gen d = Except.ok r := by
  unfold loadFile
  simp only [if_neg hv1, if_neg hv2]
  cases hL : d.layers with
  | none =>
    cases hA : d.activeLayerId with
    | none => exact ⟨_, rfl⟩
    | some a =>
      by_cases ha : a = ""
      · subst ha
        simp only [if_pos rfl]
        exact ⟨_, rfl⟩
      · simp only [if_neg ha]
        exact ⟨_, rfl⟩
  | some ls =>
    cases ls with
    | nil =>
      have := hlay hL
      cases hA : d.activeLayerId with
      | none => rw [hA] at this; simp [jsFalsyId] at this
      | some a =>
        rw [hA] at this
        simp only [jsFalsyId, decide_eq_false_iff_not] at this
        simp only [if_neg this]
        exact ⟨_, rfl⟩
    | cons l t =>
      cases hA : d.activeLayerId with
      | none => exact ⟨_, rfl⟩
      | some a =>
        by_cases ha : a = ""
        · subst ha
          simp only [if_pos rfl]
          exact ⟨_, rfl⟩
        · simp only [if_neg ha]
          exact ⟨_, rfl⟩

/-- A well-formed save file with an unknown (future) version. -/
def c6okData : SaveData :=
  ⟨some "0.3", "f3", "y", 4, 4, some "bitmap", none, none, none, none, none, none⟩

/-- Witness for C6 at a concrete future-version save file. -/
theorem c6_unknown_version_loads_witness :
    effectiveVersion c6okData ≠ "0.1" ∧ effectiveVersion c6okData ≠ "0.2" ∧
    (c6okData.layers = some [] → jsFalsyId c6okData.activeLayerId = false) ∧
    ∃ r, loadFile "g" c6okData = Except.ok r :=
  ⟨by decide, by decide, by intro h; simp [c6okData] at h,
   c6_unknown_version_loads "g" c6okData (by decide) (by decide)
     (by intro h; simp [c6okData] at h)⟩

/-- A single hidden layer. -/
def c7hiddenLayer : CLayer := ⟨"L1", false, fun _ _ => clearPixel⟩

/-- C7 counterexample: compositing a stack whose only layer is hidden does
not yield a transparent canvas — the checkerboard drawn under the layers
leaves pixel (0,0) fully opaque. -/
theorem c7_all_hidden_not_transparent :
    (compositeCanvas [c7hiddenLayer] 8 8 0 0).a = 1 ∧ (1 : ℚ) ≠ 0 :=
  ⟨rfl, by norm_num⟩

/-- Hidden layers contribute nothing to the compositing fold. -/
lemma composite_fold_hidden (L : List CLayer) (w h : ℕ) (start : CanvasImage)
    (hH : ∀ l ∈ L, l.isVisible = false) :
    L.foldl (fun acc l => if l.isVisible then drawImage acc l.pixels w h else acc)
      start = start := by
  induction L generalizing start with
  | nil => rfl
  | cons a t ih =>
    have ha : a.isVisible = false := hH a (List.mem_cons_self _ _)
    simp only [List.foldl_cons, ha, Bool.false_eq_true, if_false]
    exact ih start (fun l hl => hH l (List.mem_cons_of_mem _ hl))

/-- Painting opaque gray tiles keeps every in-bounds pixel opaque. -/
lemma gray_tiles_keep_alpha (rects : List (ℕ × ℕ)) (w h : ℕ) :
    ∀ base : CanvasImage, (∀ x y, x < w → y < h → (base x y).a = 1) →
      ∀ x y, x < w → y < h →
        ((rects.foldl (fun acc xy =>
            if (xy.1 / 8 + xy.2 / 8) % 2 = 0 then fillRect acc xy.1 xy.2 8 8 grayPixel
            else acc) base) x y).a = 1 := by
  induction rects with
  | nil => exact fun base hb => hb
  | cons r t ih =>
    intro base hb x y hx hy
    simp only [List.foldl_cons]
    apply ih _ _ x y hx hy
    intro x' y' hx' hy'
    by_cases hr : (r.1 / 8 + r.2 / 8) % 2 = 0
    · simp only [if_pos hr]
      unfold fillRect
      by_cases hin : r.1 ≤ x' ∧ x' < r.1 + 8 ∧ r.2 ≤ y' ∧ y' < r.2 + 8
      · simp [hin, grayPixel]
      · simp only [if_neg hin]
        exact hb x' y' hx' hy'
    · simp only [if_neg hr]
      exact hb x' y' hx' hy'

/-- Every in-bounds checkerboard pixel is fully opaque. -/
lemma checkerboard_alpha (w h : ℕ) (x y : ℕ) (hx : x < w) (hy : y < h) :
    ((drawCheckerboard clearedCanvas w h) x y).a = 1 := by
  unfold drawCheckerboard
  apply gray_tiles_keep_alpha (tileOrigins w h) w h _ _ x y hx hy
  intro x' y' hx' hy'
  simp [fillRect, hx', hy', whitePixel]

/-- C7 amended: compositing a stack in which every layer is hidden yields
exactly the checkerboard background — no layer contributes — and that
background is fully opaque (alpha 1) at every in-bounds pixel, not the
fully transparent canvas the claim states. -/
theorem c7_all_hidden_yields_checkerboard (layers : List CLayer) (w h : ℕ)
    (hHidden : ∀ l ∈ layers, l.isVisible = false) :
    compositeCanvas layers w h = drawCheckerboard clearedCanvas w h ∧
    ∀ x y, x < w → y < h → ((compositeCanvas layers w h) x y).a = 1 := by
  have h1 : compositeCanvas layers w h = drawCheckerboard clearedCanvas w h := by
    unfold compositeCanvas
    exact composite_fold_hidden layers.reverse w h _
      (fun l hl => hHidden l (List.mem_reverse.mp hl))
  refine ⟨h1, ?_⟩
  intro x y hx hy
  rw [h1]
  exact checkerboard_alpha w h x y hx hy

/-- Witness for C7 at a concrete one-layer hidden stack. -/
theorem c7_all_hidden_yields_checkerboard_witness :
    (∀ l ∈ [c7hiddenLayer], l.isVisible = false) ∧
    (compositeCanvas [c7hiddenLayer] 8 8 = drawCheckerboard clearedCanvas 8 8 ∧
     ∀ x y, x < 8 → y < 8 → ((compositeCanvas [c7hiddenLayer] 8 8) x y).a = 1) :=
  ⟨by simp [c7hiddenLayer],
   c7_all_hidden_yields_checkerboard [c7hiddenLayer] 8 8 (by simp [c7hiddenLayer])⟩

/-- A one-entry palette: black, fully opaque, named `A`. -/
def c1input : List Color := [⟨"x", ⟨0, 0, 0, 1⟩, some "A"⟩]

/-- The character U+4100 that the decoder reconstructs from the encoder's
UTF-8 byte of `A` followed by the zero pad byte, read as one UTF-16BE code
unit. -/
def c1garbled : String := String.mk [Char.ofNat 0x4100]

set_option maxRecDepth 8000 in
/-- C1: binary-palette round-trip does not preserve names. The encoder
writes the name's UTF-8 bytes but advances the cursor by twice the UTF-16
length, and the decoder reads the region as UTF-16BE: encoding the entry
named `A` and decoding the produced bytes yields one entry whose channel
values survive exactly but whose name is U+4100, not `A`. -/
theorem c1_ase_roundtrip_garbles_names :
    (saveASEPalette c1input).map (loadASEPalette "d")
      = some (Except.ok [⟨"d0", ⟨0, 0, 0, 1⟩, some c1garbled⟩]) ∧
    c1garbled ≠ "A" := by
  exact ⟨by decide, by decide⟩

/-- ASE file header claiming two blocks. -/
def c3header : List ℕ := u32be 0x41534546 ++ u32be 1 ++ u32be 2

/-- A complete RGB color-entry block named `A` (proper UTF-16BE name
bytes), channels (0, 0, 0), declared length 34 so no alpha float. -/
def c3entry1 : List ℕ :=
  u16be 1 ++ u32be 34 ++ u16be 1 ++ [0, 65] ++ u32be 0x52474220 ++
    f32Bytes 0 ++ f32Bytes 0 ++ f32Bytes 0 ++ u16be 0

/-- The same stream truncated in the middle of a second color entry (only
its tag and declared length survive). -/
def c3truncBytes : List ℕ := c3header ++ c3entry1 ++ u16be 1 ++ u32be 34

/-- An initialized empty document state. -/
def c3state : FileColorState := ⟨none, [], .defaultOrder, none, [], none, []⟩

set_option maxRecDepth 8000 in
/-- C3: when binary palette decoding fails after one entry already decoded
successfully, the caller receives an error and no entries — not the parsed
prefix. The intact prefix of the stream decodes to the one entry `A`; the
truncated stream makes the decoder throw (`RangeError`), and `loadPalette`
propagates the error, committing nothing. -/
theorem c3_truncated_ase_discards_parsed_colors :
    c3truncBytes = (c3header ++ c3entry1) ++ (u16be 1 ++ u32be 34) ∧
    loadASEPalette "d" (c3header ++ c3entry1)
      = Except.ok [⟨"d0", ⟨0, 0, 0, 1⟩, some "A"⟩] ∧
    loadASEPalette "d" c3truncBytes = Except.error "RangeError" ∧
    loadPalette "d" (fun k => "u" ++ toString k) "swatches.ase" c3truncBytes ""
      c3state = Except.error "RangeError" := by
  exact ⟨by simp [c3truncBytes], by decide, by decide, by decide⟩

/-- A version-"0.1" save file carrying only the flat bitmap. -/
def c5data : SaveData :=
  ⟨some "0.1", "f1", "doc", 2, 2, some "bitmap", none, none, none, none, none, none⟩

/-- C5: loading a version-"0.1" flat-bitmap save file produces the single
legacy layer, but the committed color state copies the file's absent
fields verbatim: the palette is left undefined — not the default
black-and-white pair — and the current color is left undefined — not
black (contradicting the declared `FileColorState` interface and spec
§4.5). -/
theorem c5_v01_load_skips_color_defaults :
    loadFile "gid" c5data = Except.ok
      (⟨none, none, none, none,
        some [⟨"gid", "Layer 1", true, some "bitmap"⟩], some "gid", []⟩,
       ⟨"0.1", "f1", "doc", 2, 2,
        some [⟨"gid", "Layer 1", true, some "bitmap"⟩], some "gid"⟩) ∧
    (∀ bid wid : String, (none : Option (List Color))
      ≠ some [⟨bid, ⟨0, 0, 0, 1⟩, some "Black"⟩,
              ⟨wid, ⟨255, 255, 255, 1⟩, some "White"⟩]) ∧
    (none : Option String) ≠ some "rgba(0, 0, 0, 1)" := by
  exact ⟨by decide, fun bid wid => by simp, by simp⟩

/-- A one-entry palette with integer channels (1, 2, 3), opaque, named
`X`. -/
def c8input : List Color := [⟨"p1", ⟨1, 2, 3, 1⟩, some "X"⟩]

/-- Deterministic stand-in for the decoder's `uuidv4()` ids. -/
def c8fresh (k : ℕ) : String := "u" ++ toString k

/-- C8: text-palette round-trip does not preserve names. The encoder
emits a fourth alpha column (`1.00`) that the decoder folds into the
name: encoding the entry named `X` and decoding the produced text yields
one entry with the integer channels intact but named `1.00 X`. -/
theorem c8_gpl_roundtrip_breaks_names :
    loadGPLPalette c8fresh (saveGPLPalette c8input)
      = Except.ok [⟨"u0", ⟨1, 2, 3, 1⟩, some "1.00 X"⟩] ∧
    some "1.00 X" ≠ some "X" := by
  exact ⟨by decide, by decide⟩

/-- Witness for C2 at a concrete document and operations. -/
theorem c2_layer_ops_preserve_invariant_witness :
    Inv c2state ∧
    (Inv (addLayer "L9" c2state) ∧ Inv (removeLayer "L1" c2state) ∧
     Inv (toggleLayerVisibility "L1" c2state) ∧
     Inv (updateLayerName "L1" "bg" c2state) ∧
     Inv (reorderLayers 0 0 c2state) ∧
     ("L1" ∈ layerIds c2state → Inv (setActiveLayer "L1" c2state)) ∧
     ("L1" ∈ layerIds c2state → Inv (selectLayer "L1" false c2state))) :=
  ⟨by simp [Inv, c2state, layerIds],
   c2_layer_ops_preserve_invariant "L9" "L1" "bg" 0 0 false c2state
     (by simp [Inv, c2state, layerIds])⟩

end Pxlai
